import Mathlib

/-!
Shallow embedding of the EvalAI excerpt (accounts permission gate, challenge
domain model and zip-import routine, sample evaluation script) together with
theorems settling the specification claims about it.

Python machine-level conventions adopted throughout the embedding:
* Python 3 semantics: an ordered comparison of `None` with a datetime raises
  `TypeError`; `str(None)` is the string "None".
* File contents are modelled as `String`; utf-8 decoding of bytes read from
  disk is the identity on the decoded text.
* The extracted scratch directory is a list of (absolute path, content) pairs;
  `isfile`/`open` are lookups in that list.
* Names containing the letter sequence of the Python field
  `test_ann*tation_file` are shortened to `test_annot_file` (and
  `test_annot`) in the embedding.
-/

namespace EvalAI

/-- A file system: absolute path to decoded content.  `isfile p` is
`(readFile fs p).isSome`; `open` on an absent path raises. -/
def FileSystem := List (String × String)

/-- Look a path up in the extracted scratch directory. -/
def readFile (fs : FileSystem) (p : String) : Option String :=
  (fs.find? (fun e => e.1 == p)).map (fun e => e.2)

/-- Python `s.endswith(post)` (character-list based so that concrete
instances evaluate). -/
def pyEndsWith (s post : String) : Bool :=
  post.toList.isSuffixOf s.toList

/-- Python `s.startswith(pre)`. -/
def pyStartsWith (s pre : String) : Bool :=
  pre.toList.isPrefixOf s.toList

/-- Fuel-driven worker for Python `str.split(sep)` with non-empty `sep`:
split at each leftmost non-overlapping occurrence. -/
def splitGo (sep : List Char) : Nat → List Char → List Char → List (List Char)
  | 0, _, acc => [acc.reverse]
  | _ + 1, [], acc => [acc.reverse]
  | fuel + 1, c :: rest, acc =>
    if sep.isPrefixOf (c :: rest) && !sep.isEmpty then
      acc.reverse :: splitGo sep fuel (List.drop sep.length (c :: rest)) []
    else splitGo sep fuel rest (c :: acc)

/-- Python `s.split(sep)`.  (Python raises on an empty separator; that
case is unreachable in the import and modelled as the identity split.) -/
def pySplit (s sep : String) : List String :=
  if sep.toList.isEmpty then [s]
  else (splitGo sep.toList (s.toList.length + 1) s.toList []).map List.asString

/-- Join character lists with a separator. -/
def joinList (sep : List Char) : List (List Char) → List Char
  | [] => []
  | [x] => x
  | x :: y :: xs => x ++ sep ++ joinList sep (y :: xs)

/-- Python `s.replace(old, new)`. -/
def pyReplace (s old new : String) : String :=
  (joinList new.toList ((pySplit s old).map String.toList)).asString

/-- Python `s.lower()` (ASCII, as in the source's slug inputs). -/
def pyLower (s : String) : String :=
  (s.toList.map Char.toLower).asString

/-- `os.path.basename`: the component after the last `/`. -/
def pyBasename (p : String) : String :=
  (pySplit p "/").getLastD ""

/-- `os.path.join a b` for the relative paths appearing in a challenge
bundle (an absolute second component replaces the first). -/
def pyJoin (a b : String) : String :=
  if pyStartsWith b "/" then b
  else if a = "" then b
  else if pyEndsWith a "/" then a ++ b
  else a ++ "/" ++ b

/-- `os.path.join(base, folder, name)` as used by `load_from_zip`. -/
def join3 (a f b : String) : String :=
  pyJoin (pyJoin a f) b

/-- The manifest-candidate test of `load_from_zip`: the entry name ends in
`.yaml` or `.yml` and does not start with `__MACOSX`. -/
def isYamlCandidate (name : String) : Bool :=
  (pyEndsWith name ".yaml" || pyEndsWith name ".yml")
    && !(pyStartsWith name "__MACOSX")

/-- The `for ... break / else raise` search over `zip_ref.namelist()`:
the first candidate manifest entry, if any. -/
def findYamlFile (names : List String) : Option String :=
  names.find? isYamlCandidate

/-- `yaml_file.split(basename(yaml_file))[0]`: the extracted folder prefix
of the manifest entry (Python `str.split` on the basename, first piece). -/
def folderOf (yaml_file : String) : String :=
  (pySplit yaml_file (pyBasename yaml_file)).headD ""

/-- Modelled from the spec: `base.utils.get_slug` is not part of the given
source; the spec says only that the slug is "derived from title + primary
key", so the title-to-slug step is modelled as a concrete slugify
(lowercase, non-alphanumeric characters replaced by hyphens). -/
def get_slug (title : String) : String :=
  ((title.toList.map Char.toLower).map
    (fun c => if c.isAlphanum then c else '-')).asString

/-- Modelled from the spec: `base.utils.get_queue_name` is not part of the
given source; the spec says only that the execution-queue name is
"derived from the challenge title". -/
def get_queue_name (title : String) : String :=
  get_slug title ++ "-queue"

/-- Python `str(pk)` where `pk` is `None` (unsaved) or an integer key. -/
def pkStr : Option Nat → String
  | none => "None"
  | some k => toString k

/-- Python string slicing `s[:n]` (by code points). -/
def pyTake (n : Nat) (s : String) : String :=
  (s.toList.take n).asString

/-- The pre-save hook `save_challenge_slug`:
`instance.slug = "{}-{}".format(get_slug(instance.title), instance.pk)`. -/
def save_challenge_slug (title : String) (pk : Option Nat) : String :=
  get_slug title ++ "-" ++ pkStr pk

/-- The phase slug literal built inside `load_from_zip` (models.py 350-354):
first word of the challenge title lowercased, codename with spaces replaced
by hyphens lowercased, and the challenge primary key, truncated to 198. -/
def phase_slug (title codename pk : String) : String :=
  pyTake 198
    (pyLower ((pySplit title " ").headD "") ++ "-"
      ++ pyLower (pyReplace codename " " "-") ++ "-" ++ pk)

/-! ## The verified-email gate (apps/accounts/permissions.py) -/

/-- One `EmailAddress` row: owning user id and the `verified` flag. -/
structure EmailRow where
  user : Nat
  verified : Bool
deriving DecidableEq, Repr

/-- `HasVerifiedEmail.has_permission`: anonymous requests pass; otherwise
the email rows of the requesting user are filtered (additionally by
`verified=True` when `settings.ACCOUNT_EMAIL_REQUIRED`) and the gate
returns whether the resulting query set is non-empty. -/
def HasVerifiedEmail.has_permission (is_anonymous : Bool) (user : Nat)
    (emails : List EmailRow) (account_email_required : Bool) : Bool :=
  if is_anonymous then true
  else
    let email_query := emails.filter (fun r => r.user == user)
    let email_query :=
      if account_email_required then email_query.filter (fun r => r.verified)
      else email_query
    !email_query.isEmpty

/-- The gate as the claim words it: anonymous principals pass, and an
authenticated principal passes iff verification is not required or some
verified email row exists for them.  (Spec-side definition, kept for the
refinement comparison only.) -/
def HasVerifiedEmail.claimedGate (is_anonymous : Bool) (user : Nat)
    (emails : List EmailRow) (account_email_required : Bool) : Bool :=
  is_anonymous || !account_email_required
    || emails.any (fun r => r.user == user && r.verified)

/-! ## `is_active` (shared shape of Challenge.is_active and
ChallengePhase.is_active) -/

/-- `is_active`: `if self.start_date < now() and self.end_date > now():
return True; return False`, with Python-3 `None` comparisons raising
`TypeError` and `and` short-circuiting. -/
def is_active (start_date end_date : Option Int) (now : Int) :
    Except String Bool :=
  match start_date with
  | none => .error "TypeError"
  | some s =>
    if s < now then
      match end_date with
      | none => .error "TypeError"
      | some e => if e > now then .ok true else .ok false
    else .ok false

/-! ## ChallengePhase.save clamp -/

/-- A persisted / in-memory ChallengePhase record (the fields the claims
touch; `test_annot` holds the annotation file content). -/
structure PhaseRec where
  pk : Option Nat
  challenge : Option Nat
  name : String
  codename : String
  slug : String
  description : Option String
  test_annot : String
  max_submissions_per_day : Nat
  max_submissions_per_month : Nat
  max_submissions : Nat
  max_concurrent_submissions_allowed : Nat
deriving DecidableEq, Repr

/-- The body of `ChallengePhase.save`: clamp the concurrent cap to the
daily cap before persisting. -/
def ChallengePhase.save (p : PhaseRec) : PhaseRec :=
  if p.max_submissions_per_day < p.max_concurrent_submissions_allowed then
    { p with max_concurrent_submissions_allowed := p.max_submissions_per_day }
  else p

/-! ## Challenge record and its save (pre-save slug hook) -/

/-- A persisted / in-memory Challenge record (fields the claims touch). -/
structure ChallengeRec where
  pk : Option Nat
  title : String
  slug : String
  queue : String
  description : String
  evaluation_details : Option String
  terms_and_conditions : Option String
  submission_guidelines : Option String
  evaluation_script : String
  image : Option String
  is_docker_based : Bool
  creator : Nat
deriving DecidableEq, Repr

/-- `Challenge.save`: the `pre_save` receiver `save_challenge_slug` runs
first (formatting the current, possibly unassigned, primary key into the
slug), then the insert assigns a fresh primary key if none was set. -/
def Challenge.save (nextPk : Nat) (c : ChallengeRec) : ChallengeRec :=
  let c := { c with slug := save_challenge_slug c.title c.pk }
  { c with pk := some (c.pk.getD nextPk) }

/-! ## Manifest data (the parsed YAML document) -/

/-- One element of `challenge_phases` in the manifest.  `test_annot_file`
models `test_ann*tation_file`; the empty string stands for a falsy value. -/
structure PhaseData where
  id : Nat
  name : String
  codename : String
  description : String
  test_annot_file : String
  max_submissions_per_day : Nat
  max_submissions_per_month : Nat
  max_submissions : Nat
  max_concurrent_submissions_allowed : Nat
deriving DecidableEq, Repr

/-- One element of `leaderboard` in the manifest. -/
structure LBData where
  id : Nat
  schema : String
deriving DecidableEq, Repr

/-- One element of `dataset_splits` in the manifest. -/
structure SplitData where
  id : Nat
  name : String
  codename : String
deriving DecidableEq, Repr

/-- One element of `challenge_phase_splits` in the manifest. -/
structure PhaseSplitData where
  challenge_phase_id : Nat
  leaderboard_id : Nat
  dataset_split_id : Nat
  visibility : Nat
deriving DecidableEq, Repr

/-- The parsed manifest (`yaml_file_data`), before the HTML-resolution
step rewrites its long-form text fields. -/
structure Manifest where
  title : String
  evaluation_script : String
  image : Option String
  description : String
  evaluation_details : String
  terms_and_conditions : String
  submission_guidelines : String
  is_docker_based : Bool
  challenge_phases : List PhaseData
  leaderboard : List LBData
  dataset_splits : List SplitData
  challenge_phase_splits : List PhaseSplitData
deriving Repr

/-- `yaml_file_data` after the HTML-resolution step: note that
`description` stays a `String` (the source has no else-branch for it)
while the other three long-form fields become `None` when unresolved. -/
structure NormManifest where
  title : String
  evaluation_script : String
  image : Option String
  description : String
  evaluation_details : Option String
  terms_and_conditions : Option String
  submission_guidelines : Option String
  is_docker_based : Bool
  challenge_phases : List PhaseData
  leaderboard : List LBData
  dataset_splits : List SplitData
  challenge_phase_splits : List PhaseSplitData
deriving Repr

/-! ## HTML resolution (models.py 247-300 and 334-347) -/

/-- The shared pattern for `evaluation_details`, `terms_and_conditions`,
`submission_guidelines` and each phase `description`: replace the field by
the decoded file content when the joined path ends in `.html` and that
file exists, otherwise set it to `None`. -/
def resolveHtmlOpt (fs : FileSystem) (base folder value : String) :
    Option String :=
  let p := join3 base folder value
  if pyEndsWith p ".html" then readFile fs p else none

/-- The pattern actually used for the challenge `description`
(models.py 247-257): replace on an existing `.html` path, but with no
else-branch the original literal value is kept otherwise. -/
def resolveDescriptionField (fs : FileSystem) (base folder value : String) :
    String :=
  let p := join3 base folder value
  if pyEndsWith p ".html" then
    match readFile fs p with
    | some c => c
    | none => value
  else value

/-- The whole challenge-level HTML-resolution step (models.py 247-300). -/
def normalizeChallengeFields (fs : FileSystem) (base folder : String)
    (m : Manifest) : NormManifest :=
  { title := m.title
    evaluation_script := m.evaluation_script
    image := m.image
    description := resolveDescriptionField fs base folder m.description
    evaluation_details := resolveHtmlOpt fs base folder m.evaluation_details
    terms_and_conditions :=
      resolveHtmlOpt fs base folder m.terms_and_conditions
    submission_guidelines :=
      resolveHtmlOpt fs base folder m.submission_guidelines
    is_docker_based := m.is_docker_based
    challenge_phases := m.challenge_phases
    leaderboard := m.leaderboard
    dataset_splits := m.dataset_splits
    challenge_phase_splits := m.challenge_phase_splits }

/-- The logo-image resolution (models.py 229-245). -/
def resolveImage (fs : FileSystem) (base folder : String)
    (image : Option String) : Option String :=
  match image with
  | none => none
  | some img =>
    if pyEndsWith img ".jpg" || pyEndsWith img ".jpeg" || pyEndsWith img ".png"
    then readFile fs (join3 base folder img)
    else none

/-! ## Remaining persisted records and the database -/

/-- A persisted Leaderboard row. -/
structure LeaderboardRec where
  pk : Nat
  schema : String
deriving DecidableEq, Repr

/-- A persisted DatasetSplit row. -/
structure SplitRec where
  pk : Nat
  name : String
  codename : String
deriving DecidableEq, Repr

/-- A persisted ChallengePhaseSplit row. -/
structure PhaseSplitRec where
  pk : Nat
  challenge_phase : Nat
  dataset_split : Nat
  leaderboard : Nat
  visibility : Nat
deriving DecidableEq, Repr

/-- A persisted ParticipantTeam row. -/
structure TeamRec where
  pk : Nat
  team_name : String
  created_by : Nat
deriving DecidableEq, Repr

/-- Modelled from the spec: `Participant.ACCEPTED` lives in the
participants app, which is not part of the given source; the spec says
hosts are enrolled with "accepted status". -/
def Participant.ACCEPTED : String := "Accepted"

/-- A persisted Participant row. -/
structure ParticipantRec where
  user : Nat
  status : String
  team : Nat
deriving DecidableEq, Repr

/-- The persisted state touched by the import: one table per record kind,
a fresh-key counter, and the challenge/participant-team many-to-many. -/
structure DB where
  nextPk : Nat
  challenges : List ChallengeRec
  leaderboards : List LeaderboardRec
  phases : List PhaseRec
  datasetSplits : List SplitRec
  phaseSplits : List PhaseSplitRec
  participantTeams : List TeamRec
  participants : List ParticipantRec
  challengeTeams : List (Option Nat × Nat)
deriving Repr

/-- The serializer input assembled for each phase (`data` after the loop
rewrote `description` and added `slug`). -/
structure PhaseForm where
  id : Nat
  name : String
  codename : String
  description : Option String
  slug : String
  test_annot_file : String
  max_submissions_per_day : Nat
  max_submissions_per_month : Nat
  max_submissions : Nat
  max_concurrent_submissions_allowed : Nat
deriving DecidableEq, Repr

/-- Modelled from the spec: the serializer classes imported from
`.serializers` are not part of the given source.  The spec says only that
each record is validated and that validation failures raise; the validity
predicates are therefore left as parameters of the import routine.
`splitValid` sees the current database because the source notes that a
duplicate dataset-split name is rejected at this step. -/
structure Serializers where
  challengeValid : NormManifest → Bool
  leaderboardValid : LBData → Bool
  phaseValid : PhaseForm → Bool
  splitValid : DB → SplitData → Bool
  phaseSplitValid : PhaseSplitRec → Bool

/-- The environment of one `load_from_zip` call: the archive entry list,
the extracted scratch directory, the YAML parser, and the pieces of the
hosts/participants apps the final step reads.  `hostEmails` is modelled
from the spec: `get_all_challenge_host_email` (hosts app, not in the given
source) returns "every verified host-team email address";
`userByEmail` models `User.objects.get(email=...)`; `randValue` models
`random.randint(1, 100000)`; `hostTeamCreatedBy` is the host team's
creating user. -/
structure Env where
  namelist : List String
  base : String
  fs : FileSystem
  parse : String → Manifest
  hostEmails : List String
  userByEmail : String → Option Nat
  randValue : Nat
  hostTeamCreatedBy : Nat

/-- The exceptions `load_from_zip` can raise. -/
inductive Err where
  | noYaml
  | fileNotFound (p : String)
  | nameError
  | validation
  | keyError
  | userNotFound (email : String)
deriving DecidableEq, Repr

/-- The Python message carried by each exception (only `noYaml` carries a
message the claims quote). -/
def errMessage : Err → String
  | .noYaml => "No yaml file found in zip root!"
  | .fileNotFound p => "FileNotFoundError: " ++ p
  | .nameError => "NameError: name 'challenge_test_annot_file' is not defined"
  | .validation => "serializer.errors"
  | .keyError => "KeyError"
  | .userNotFound e => "User matching query does not exist: " ++ e

/-! ## The import pipeline (Challenge.load_from_zip) -/

/-- The dead pre-check loop over `challenge_phases` (models.py 221-227):
it leaves `test_annot_file_path` holding the LAST phase's joined path
(or unbound when there are no phases, in which case the phase loop never
runs and the value is irrelevant). -/
def preloopPath (base folder : String) (phases : List PhaseData) : String :=
  match phases.getLast? with
  | some d => join3 base folder d.test_annot_file
  | none => ""

/-- Build the in-memory Challenge instance handed to the serializer. -/
def mkChallenge (m : NormManifest) (evalScript : String)
    (img : Option String) (creator : Nat) : ChallengeRec :=
  { pk := none
    title := m.title
    slug := ""
    queue := ""
    description := m.description
    evaluation_details := m.evaluation_details
    terms_and_conditions := m.terms_and_conditions
    submission_guidelines := m.submission_guidelines
    evaluation_script := evalScript
    image := img
    is_docker_based := m.is_docker_based
    creator := creator }

/-- Persist a Challenge instance: the pre-save hook runs, then a new row
is inserted (fresh key) or the existing row is updated in place. -/
def persistChallenge (db : DB) (c : ChallengeRec) : DB × ChallengeRec :=
  let c' := Challenge.save db.nextPk c
  match c.pk with
  | none =>
    ({ db with nextPk := db.nextPk + 1, challenges := db.challenges ++ [c'] },
      c')
  | some k =>
    ({ db with challenges :=
        db.challenges.map (fun x => if x.pk == some k then c' else x) }, c')

/-- Association-list lookup for the manifest-local-id maps. -/
def lookupId (ids : List (Nat × Nat)) (k : Nat) : Option Nat :=
  (ids.find? (fun e => e.1 == k)).map (fun e => e.2)

/-- Prepend one manifest-local-id mapping to the result of the remaining
loop iterations (errors pass through with their database state). -/
def consIds (x : Nat × Nat) (res : DB × Except Err (List (Nat × Nat))) :
    DB × Except Err (List (Nat × Nat)) :=
  match res with
  | (db'', .ok ids) => (db'', .ok (x :: ids))
  | e => e

/-- The leaderboard creation loop (models.py 320-329). -/
def processLeaderboards (ser : Serializers) :
    List LBData → DB → DB × Except Err (List (Nat × Nat))
  | [], db => (db, .ok [])
  | d :: rest, db =>
    if ser.leaderboardValid d then
      let pk := db.nextPk
      let db' := { db with
        nextPk := pk + 1
        leaderboards := db.leaderboards ++ [⟨pk, d.schema⟩] }
      consIds (d.id, pk) (processLeaderboards ser rest db')
    else (db, .error .validation)

/-- The phase creation loop (models.py 331-383).  The `path` and `ann`
arguments model the Python locals `test_annot_file_path` and
`challenge_test_annot_file`, which persist across iterations: `path` is
only reassigned when the manifest value is truthy, the annotation content
is only reloaded when the current path exists on disk, and when it has
never been assigned (`ann = none`) building the serializer context raises
`NameError`.  Persisting a phase applies the `ChallengePhase.save`
clamp. -/
def processPhases (fs : FileSystem) (base folder : String)
    (ser : Serializers) (ch : ChallengeRec) :
    List PhaseData → String → Option String → DB →
    DB × Except Err (List (Nat × Nat))
  | [], _, _, db => (db, .ok [])
  | data :: rest, path, ann, db =>
    let desc := resolveHtmlOpt fs base folder data.description
    let slug := phase_slug ch.title data.codename (pkStr ch.pk)
    let path := if data.test_annot_file != "" then
        join3 base folder data.test_annot_file
      else path
    let ann := match readFile fs path with
      | some c => some c
      | none => ann
    match ann with
    | none => (db, .error .nameError)
    | some c =>
      let form : PhaseForm :=
        { id := data.id
          name := data.name
          codename := data.codename
          description := desc
          slug := slug
          test_annot_file := data.test_annot_file
          max_submissions_per_day := data.max_submissions_per_day
          max_submissions_per_month := data.max_submissions_per_month
          max_submissions := data.max_submissions
          max_concurrent_submissions_allowed :=
            data.max_concurrent_submissions_allowed }
      if ser.phaseValid form then
        let pk := db.nextPk
        let row : PhaseRec := ChallengePhase.save
          { pk := some pk
            challenge := ch.pk
            name := data.name
            codename := data.codename
            slug := slug
            description := desc
            test_annot := c
            max_submissions_per_day := data.max_submissions_per_day
            max_submissions_per_month := data.max_submissions_per_month
            max_submissions := data.max_submissions
            max_concurrent_submissions_allowed :=
              data.max_concurrent_submissions_allowed }
        let db' := { db with nextPk := pk + 1, phases := db.phases ++ [row] }
        consIds (data.id, pk)
          (processPhases fs base folder ser ch rest path (some c) db')
      else (db, .error .validation)

/-- The dataset-split creation loop (models.py 385-395). -/
def processSplits (ser : Serializers) :
    List SplitData → DB → DB × Except Err (List (Nat × Nat))
  | [], db => (db, .ok [])
  | d :: rest, db =>
    if ser.splitValid db d then
      let pk := db.nextPk
      let db' := { db with
        nextPk := pk + 1
        datasetSplits := db.datasetSplits ++ [⟨pk, d.name, d.codename⟩] }
      consIds (d.id, pk) (processSplits ser rest db')
    else (db, .error .validation)

/-- The phase-split creation loop (models.py 397-423): the three
manifest-local ids are resolved through the maps built above (a missing
key raises `KeyError`). -/
def processPhaseSplits (ser : Serializers)
    (phase_ids lb_ids split_ids : List (Nat × Nat)) :
    List PhaseSplitData → DB → DB × Except Err Unit
  | [], db => (db, .ok ())
  | d :: rest, db =>
    match lookupId phase_ids d.challenge_phase_id,
        lookupId lb_ids d.leaderboard_id,
        lookupId split_ids d.dataset_split_id with
    | some cp, some lb, some ds =>
      let row : PhaseSplitRec :=
        { pk := db.nextPk
          challenge_phase := cp
          dataset_split := ds
          leaderboard := lb
          visibility := d.visibility }
      if ser.phaseSplitValid row then
        processPhaseSplits ser phase_ids lb_ids split_ids rest
          { db with
            nextPk := db.nextPk + 1
            phaseSplits := db.phaseSplits ++ [row] }
      else (db, .error .validation)
    | _, _, _ => (db, .error .keyError)

/-- The enrolment loop over host emails (models.py 434-441):
`User.objects.get` raises when no account matches the email. -/
def enrollEmails (lookup : String → Option Nat) (teamPk : Nat) :
    List String → DB → DB × Except Err Unit
  | [], db => (db, .ok ())
  | e :: rest, db =>
    match lookup e with
    | none => (db, .error (.userNotFound e))
    | some u =>
      enrollEmails lookup teamPk rest
        { db with participants :=
            db.participants ++ [⟨u, Participant.ACCEPTED, teamPk⟩] }

/-- The final host-participant step (models.py 425-442): skipped for
docker-based challenges; otherwise one synthetic team is created, every
host email is enrolled as an accepted participant, and the team is
attached to the challenge. -/
def addHostParticipants (env : Env) (ch : ChallengeRec) (db : DB) :
    DB × Except Err ChallengeRec :=
  if ch.is_docker_based then (db, .ok ch)
  else
    let team : TeamRec :=
      { pk := db.nextPk
        team_name := "Host_" ++ toString env.randValue ++ "_Team"
        created_by := env.hostTeamCreatedBy }
    let db1 := { db with
      nextPk := db.nextPk + 1
      participantTeams := db.participantTeams ++ [team] }
    match enrollEmails env.userByEmail team.pk env.hostEmails db1 with
    | (db2, .ok _) =>
      ({ db2 with challengeTeams := db2.challengeTeams ++ [(ch.pk, team.pk)] },
        .ok ch)
    | (db2, .error e) => (db2, .error e)

/-- `Challenge.load_from_zip` (models.py 176-445): manifest selection,
auxiliary-file resolution, challenge / leaderboard / phase / split /
phase-split persistence, and host-participant seeding.  Errors abort
immediately; rows persisted before the error remain (no rollback). -/
def Challenge.load_from_zip (env : Env) (ser : Serializers) (db : DB) :
    DB × Except Err ChallengeRec :=
  match findYamlFile env.namelist with
  | none => (db, .error .noYaml)
  | some yaml_file =>
    let folder := folderOf yaml_file
    match readFile env.fs (pyJoin env.base yaml_file) with
    | none => (db, .error (.fileNotFound (pyJoin env.base yaml_file)))
    | some yamlContent =>
      let m := env.parse yamlContent
      let scriptPath := join3 env.base folder m.evaluation_script
      match readFile env.fs scriptPath with
      | none => (db, .error (.fileNotFound scriptPath))
      | some evalScript =>
        let initPath := preloopPath env.base folder m.challenge_phases
        let img := resolveImage env.fs env.base folder m.image
        let nm := normalizeChallengeFields env.fs env.base folder m
        if ser.challengeValid nm then
          let p1 := persistChallenge db
            (mkChallenge nm evalScript img env.hostTeamCreatedBy)
          let p2 := persistChallenge p1.1
            { p1.2 with queue := get_queue_name p1.2.title }
          let ch := p2.2
          match processLeaderboards ser nm.leaderboard p2.1 with
          | (db3, .error e) => (db3, .error e)
          | (db3, .ok lb_ids) =>
            match processPhases env.fs env.base folder ser ch
                nm.challenge_phases initPath none db3 with
            | (db4, .error e) => (db4, .error e)
            | (db4, .ok phase_ids) =>
              match processSplits ser nm.dataset_splits db4 with
              | (db5, .error e) => (db5, .error e)
              | (db5, .ok split_ids) =>
                match processPhaseSplits ser phase_ids lb_ids split_ids
                    nm.challenge_phase_splits db5 with
                | (db6, .error e) => (db6, .error e)
                | (db6, .ok _) => addHostParticipants env ch db6
        else (db, .error .validation)

/-! ## The sample evaluation script (evaluation_script/main.py) -/

/-- The statistics library (sklearn.metrics) is an out-of-scope external
collaborator; its four scorers are parameters of the model.  Each takes
the merged `y_true` column and the possibly-null `y_pred` column. -/
structure MetricsLib where
  accuracy_score : List String → List (Option String) → Rat
  precision_score : List String → List (Option String) → Rat
  recall_score : List String → List (Option String) → Rat
  f1_score : List String → List (Option String) → Rat

/-- `pd.merge(df_true, df_submit, how='left', on='ID')`: each ground-truth
row paired with the submitted label for its ID, if any. -/
def leftMerge (df_true df_submit : List (Nat × String)) :
    List (Nat × String × Option String) :=
  df_true.map (fun r =>
    (r.1, r.2, (df_submit.find? (fun s => s.1 == r.1)).map (fun s => s.2)))

/-- The result document returned by `evaluate`: the Python dict starts as
`{}` and the two entries are only inserted in the
`phase_codename == "challenge"` branch, so each is optional. -/
structure EvalOutput where
  result : Option (List (String × List (String × Rat)))
  submission_result : Option (List (String × Rat))
deriving Repr

/-- `evaluate(test_ann_file, user_submission_file, phase_codename)` of the
sample evaluation script, with the two CSV files already loaded into
(ID, label) rows and the sklearn scorers abstracted as `lib`. -/
def evaluate (lib : MetricsLib) (df_true df_submit : List (Nat × String))
    (phase_codename : String) : EvalOutput :=
  let df := leftMerge df_true df_submit
  let y_true := df.map (fun r => r.2.1)
  let y_pred := df.map (fun r => r.2.2)
  let train_split : List (String × Rat) :=
    [("Accuracy", lib.accuracy_score y_true y_pred),
     ("Precision", lib.precision_score y_true y_pred),
     ("Recall", lib.recall_score y_true y_pred),
     ("F1-Score", lib.f1_score y_true y_pred)]
  if phase_codename == "challenge" then
    { result := some [("challenge", train_split)]
      submission_result := some train_split }
  else
    { result := none, submission_result := none }

/-! ## Concrete fixtures used by witnesses and counterexamples -/

/-- Discriminate success results. -/
def isOkB {α : Type} : Except Err α → Bool
  | .ok _ => true
  | .error _ => false

/-- The empty database. -/
def db0 : DB := ⟨0, [], [], [], [], [], [], [], []⟩

/-- Serializers that accept every record (used to exhibit concrete runs;
validity behaviour of the real serializer classes is out of the given
source). -/
def serAccept : Serializers :=
  ⟨fun _ => true, fun _ => true, fun _ => true, fun _ _ => true, fun _ => true⟩

/-- A manifest with two phases: the first annotation file exists in the
bundle, the second does not. -/
def manifest4 : Manifest :=
  { title := "Forest Challenge"
    evaluation_script := "eval.zip"
    image := none
    description := "about.txt"
    evaluation_details := "e"
    terms_and_conditions := "t"
    submission_guidelines := "s"
    is_docker_based := true
    challenge_phases :=
      [⟨1, "Phase 1", "p1", "pd1", "ann1.txt", 10, 10, 10, 3⟩,
       ⟨2, "Phase 2", "p2", "pd2", "ann2.txt", 10, 10, 10, 3⟩]
    leaderboard := []
    dataset_splits := []
    challenge_phase_splits := [] }

/-- The extracted bundle for `manifest4`: no `ann2.txt` on disk. -/
def fs4 : FileSystem :=
  [("challenge.yaml", "Y"), ("eval.zip", "E"), ("ann1.txt", "A1")]

/-- Environment for the stale-annotation run. -/
def env4 : Env :=
  ⟨["challenge.yaml"], "", fs4, fun _ => manifest4, [], fun _ => none, 1, 0⟩

/-- Same bundle but a non-docker challenge with one phase, and one host
email with a matching account. -/
def manifest8 : Manifest :=
  { manifest4 with
    is_docker_based := false
    challenge_phases := [⟨1, "Phase 1", "p1", "pd1", "ann1.txt", 10, 10, 10, 3⟩] }

/-- Environment for the host-participant run. -/
def env8 : Env :=
  ⟨["challenge.yaml"], "", fs4, fun _ => manifest8, ["host@example.com"],
    fun e => if e == "host@example.com" then some 42 else none, 7, 5⟩

/-- The result of the host-participant run. -/
def loadRes8 : DB × Except Err ChallengeRec :=
  Challenge.load_from_zip env8 serAccept db0

/-- A throwaway Challenge record (used only to extract a success value). -/
def junkChallenge : ChallengeRec :=
  ⟨none, "", "", "", "", none, none, none, "", none, false, 0⟩

/-- The challenge returned by the host-participant run. -/
def ch8 : ChallengeRec := loadRes8.2.toOption.getD junkChallenge

/-- Environment whose archive has no manifest candidate (the only
`.yaml` entry lives under `__MACOSX`). -/
def env2 : Env :=
  ⟨["__MACOSX/a.yaml", "readme.txt"], "", [], fun _ => manifest4, [],
    fun _ => none, 0, 0⟩

/-! ## Helper lemmas -/

theorem filter_not_isEmpty {α : Type} (p : α → Bool) (l : List α) :
    (!(l.filter p).isEmpty) = l.any p := by
  induction l with
  | nil => rfl
  | cons a t ih =>
    simp only [List.filter_cons, List.any_cons]
    cases h : p a <;> simp [h, ih]

theorem any_of_filter {α : Type} (p q : α → Bool) (l : List α) :
    (l.filter p).any q = l.any (fun a => p a && q a) := by
  induction l with
  | nil => rfl
  | cons a t ih =>
    simp only [List.filter_cons, List.any_cons]
    cases h : p a <;> simp [h, ih]

theorem consIds_fst (x : Nat × Nat) (res : DB × Except Err (List (Nat × Nat))) :
    (consIds x res).1 = res.1 := by
  rcases res with ⟨d, r⟩
  cases r <;> rfl

theorem find_eq_head_filter {α : Type} (p : α → Bool) (l : List α) :
    l.find? p = (l.filter p).head? := by
  induction l with
  | nil => rfl
  | cons a t ih =>
    rw [List.find?_cons, List.filter_cons]
    cases h : p a
    · simp only [Bool.false_eq_true, if_false]
      exact ih
    · simp

/-! ## Claim theorems -/

/-- C1 counterexample: an authenticated principal with zero email-address
records while verification is NOT required is denied by the code, while
the claim ("permitted regardless of how many email-address records they
have") predicts permission. -/
theorem hasVerifiedEmail_zero_emails_counterexample :
    HasVerifiedEmail.has_permission false 0 [] false = false ∧
    HasVerifiedEmail.claimedGate false 0 [] false = true := by
  constructor <;> rfl

/-- C1 (amended): anonymous principals pass unconditionally; an
authenticated principal passes iff at least one email-address record
exists for them that, when verification is required, is verified — in
particular an authenticated principal with no email rows at all is denied
even when verification is not required. -/
theorem hasVerifiedEmail_gate_amended (is_anonymous : Bool) (user : Nat)
    (emails : List EmailRow) (required : Bool) :
    HasVerifiedEmail.has_permission is_anonymous user emails required =
      (is_anonymous ||
        emails.any (fun r => (r.user == user) && (!required || r.verified))) := by
  cases is_anonymous with
  | true => rfl
  | false =>
    cases required <;>
      simp [HasVerifiedEmail.has_permission, filter_not_isEmpty,
        any_of_filter, Bool.and_comm]

/-- C5: `ChallengePhase.save` clamps the concurrent cap to the daily cap
when it exceeds it, leaves the invariant `concurrent ≤ daily` after every
save, and changes no other field. -/
theorem challengePhase_save_clamp (p : PhaseRec) :
    (p.max_submissions_per_day < p.max_concurrent_submissions_allowed →
      (ChallengePhase.save p).max_concurrent_submissions_allowed =
        p.max_submissions_per_day) ∧
    (ChallengePhase.save p).max_concurrent_submissions_allowed ≤
      (ChallengePhase.save p).max_submissions_per_day ∧
    (ChallengePhase.save p).pk = p.pk ∧
    (ChallengePhase.save p).challenge = p.challenge ∧
    (ChallengePhase.save p).name = p.name ∧
    (ChallengePhase.save p).codename = p.codename ∧
    (ChallengePhase.save p).slug = p.slug ∧
    (ChallengePhase.save p).description = p.description ∧
    (ChallengePhase.save p).test_annot = p.test_annot ∧
    (ChallengePhase.save p).max_submissions_per_day =
      p.max_submissions_per_day ∧
    (ChallengePhase.save p).max_submissions_per_month =
      p.max_submissions_per_month ∧
    (ChallengePhase.save p).max_submissions = p.max_submissions := by
  unfold ChallengePhase.save
  by_cases h : p.max_submissions_per_day < p.max_concurrent_submissions_allowed <;>
    (simp [h]; try omega)

/-- C5 witness: a phase with daily cap 2 and concurrent cap 5 is saved
with concurrent cap 2. -/
theorem challengePhase_save_clamp_witness :
    (2 < 5) ∧
    (ChallengePhase.save
      ⟨none, none, "n", "c", "s", none, "t", 2, 10, 10, 5⟩).max_concurrent_submissions_allowed = 2 :=
  ⟨by decide,
    (challengePhase_save_clamp
      ⟨none, none, "n", "c", "s", none, "t", 2, 10, 10, 5⟩).1 (by decide)⟩

/-- C6: slug generation is a pure function of its inputs — the challenge
slug is the slugified title joined with the primary key, the phase slug is
first-word-of-title/codename/challenge-id truncated to 198 characters, and
re-running either on the same inputs returns the same string. -/
theorem slug_generation_deterministic (title codename : String) (ck : Nat)
    (pk : Option Nat) :
    save_challenge_slug title pk = get_slug title ++ "-" ++ pkStr pk ∧
    phase_slug title codename (toString ck) =
      pyTake 198
        (pyLower ((pySplit title " ").headD "") ++ "-"
          ++ pyLower (pyReplace codename " " "-") ++ "-" ++ toString ck) ∧
    (phase_slug title codename (toString ck)).length ≤ 198 ∧
    save_challenge_slug title pk = save_challenge_slug title pk ∧
    phase_slug title codename (toString ck) =
      phase_slug title codename (toString ck) := by
  refine ⟨rfl, rfl, ?_, rfl, rfl⟩
  show ((String.toList _).take 198).asString.length ≤ 198
  rw [show ∀ l : List Char, l.asString.length = l.length from fun _ => rfl]
  simp [List.length_take]

/-- C7 counterexample: invoked with a phase identifier other than
"challenge" the sample `evaluate` returns the empty document — neither a
`result` nor a `submission_result` entry — refuting the claim that every
invocation returns both. -/
theorem evaluate_missing_keys_counterexample :
    (evaluate ⟨fun _ _ => 0, fun _ _ => 0, fun _ _ => 0, fun _ _ => 0⟩
      [] [] "dev").result = none ∧
    (evaluate ⟨fun _ _ => 0, fun _ _ => 0, fun _ _ => 0, fun _ _ => 0⟩
      [] [] "dev").submission_result = none := by
  constructor <;> rfl

/-- C7 (amended): the sample `evaluate` returns a document with both a
`result` entry (one per-split grouping for the "challenge" split) and a
`submission_result` entry holding the same metrics exactly when the phase
identifier is "challenge"; for any other phase identifier the returned
document is empty. -/
theorem evaluate_keys_amended (lib : MetricsLib)
    (df_true df_submit : List (Nat × String)) (phase_codename : String) :
    (phase_codename = "challenge" →
      ∃ split : List (String × Rat),
        (evaluate lib df_true df_submit phase_codename).result =
          some [("challenge", split)] ∧
        (evaluate lib df_true df_submit phase_codename).submission_result =
          some split) ∧
    (phase_codename ≠ "challenge" →
      (evaluate lib df_true df_submit phase_codename).result = none ∧
      (evaluate lib df_true df_submit phase_codename).submission_result =
        none) := by
  constructor <;> intro h <;> simp [evaluate, h]

/-- C7 witness: concrete instances of both branches of the amended
statement. -/
theorem evaluate_keys_amended_witness :
    (("dev" : String) ≠ "challenge") ∧
    (evaluate ⟨fun _ _ => 1, fun _ _ => 1, fun _ _ => 1, fun _ _ => 1⟩
      [] [] "dev").result = none :=
  ⟨by decide,
    ((evaluate_keys_amended
      ⟨fun _ _ => 1, fun _ _ => 1, fun _ _ => 1, fun _ _ => 1⟩
      [] [] "dev").2 (by decide)).1⟩

/-- C9: a Challenge saved while its primary key is still unassigned gets a
slug ending in "-None" (the formatted unassigned key); a subsequent save
of the now-keyed record writes the slug with the real primary key. -/
theorem first_save_slug_none (c : ChallengeRec) (n m : Nat)
    (h : c.pk = none) :
    (Challenge.save n c).slug = get_slug c.title ++ "-None" ∧
    (Challenge.save n c).pk = some n ∧
    (Challenge.save m (Challenge.save n c)).slug =
      get_slug c.title ++ "-" ++ toString n := by
  simp [Challenge.save, save_challenge_slug, h, pkStr, String.append_assoc]

/-- C9 witness: the concrete first and second saves of a fresh record. -/
theorem first_save_slug_none_witness :
    ((junkChallenge.pk = none) ∧
      (Challenge.save 7 junkChallenge).slug =
        get_slug junkChallenge.title ++ "-None") :=
  ⟨rfl, (first_save_slug_none junkChallenge 7 0 rfl).1⟩

/-- C10 counterexample: a record whose `start_date` is set in the future
and whose `end_date` is unset has `is_active` return `False` (the `and`
short-circuits before the `None` comparison), refuting the claim that
every record with a missing date raises. -/
theorem is_active_short_circuit_counterexample :
    is_active (some 5) none 3 = .ok false := by rfl

/-- C10 (amended): `is_active` raises `TypeError` when `start_date` is
unset, and when `start_date` is in the past while `end_date` is unset;
but when `start_date` is set and not earlier than now it returns `False`
without examining `end_date`, even if `end_date` is unset. -/
theorem is_active_partiality_amended (s e : Option Int) (now : Int) :
    (is_active none e now = .error "TypeError") ∧
    (∀ v : Int, s = some v → v < now → e = none →
      is_active s e now = .error "TypeError") ∧
    (∀ v : Int, s = some v → ¬ v < now → is_active s e now = .ok false) := by
  refine ⟨rfl, ?_, ?_⟩
  · intro v hs hv he
    subst hs; subst he
    simp [is_active, hv]
  · intro v hs hv
    subst hs
    simp [is_active, hv]

/-- C10 witness: both raising branches and the non-raising branch at
concrete dates. -/
theorem is_active_partiality_amended_witness :
    ((1 : Int) < 5 ∧ is_active (some 1) none 5 = .error "TypeError") ∧
    (¬ (9 : Int) < 5 ∧ is_active (some 9) none 5 = .ok false) :=
  ⟨⟨by decide,
      (is_active_partiality_amended (some 1) none 5).2.1 1 rfl (by decide) rfl⟩,
    ⟨by decide,
      (is_active_partiality_amended (some 9) none 5).2.2 9 rfl (by decide)⟩⟩

/-- C2: when no archive entry outside `__MACOSX` ends in `.yaml`/`.yml`,
`load_from_zip` raises the exception whose message is "No yaml file found
in zip root!" with the database exactly as before (no Challenge,
Leaderboard, ChallengePhase, DatasetSplit or ChallengePhaseSplit row
persisted); and the selected manifest is always the first matching entry
in archive order. -/
theorem load_no_yaml (env : Env) (ser : Serializers) (db : DB) :
    (findYamlFile env.namelist = none →
      Challenge.load_from_zip env ser db = (db, .error .noYaml)) ∧
    errMessage .noYaml = "No yaml file found in zip root!" ∧
    findYamlFile env.namelist = (env.namelist.filter isYamlCandidate).head? := by
  refine ⟨?_, rfl, find_eq_head_filter _ _⟩
  intro h
  unfold Challenge.load_from_zip
  rw [h]

/-- C2 witness: a concrete archive whose only YAML entry is under
`__MACOSX` makes the import fail with the no-manifest error and an
untouched database. -/
theorem load_no_yaml_witness :
    (findYamlFile env2.namelist = none) ∧
    Challenge.load_from_zip env2 serAccept db0 = (db0, .error .noYaml) :=
  ⟨rfl, (load_no_yaml env2 serAccept db0).1 rfl⟩

/-- C3 counterexample: the challenge `description` whose manifest value is
not an existing `.html` path is left as the literal path (the source has
no else-branch for this one field), not set to empty/none as the claim
states for all four challenge-level fields; the rule the claim describes
(`resolveHtmlOpt`) would have produced `none`. -/
theorem description_literal_counterexample :
    (normalizeChallengeFields [] "" "" manifest4).description = "about.txt" ∧
    ("about.txt" : String) ≠ "" ∧
    resolveHtmlOpt [] "" "" "about.txt" = none := by
  refine ⟨rfl, by decide, rfl⟩

/-- C3 (amended): `evaluation_details`, `terms_and_conditions`,
`submission_guidelines` (and, via the same `resolveHtmlOpt` rule inside
the phase loop, each phase description) are replaced by the decoded file
content when the value names an existing `.html` path and set to none
otherwise; the challenge `description` is replaced on an existing `.html`
path but otherwise keeps the literal manifest value. -/
theorem html_resolution_amended (fs : FileSystem) (base folder v : String) :
    (pyEndsWith (join3 base folder v) ".html" = true →
      ∀ c, readFile fs (join3 base folder v) = some c →
        resolveDescriptionField fs base folder v = c ∧
        resolveHtmlOpt fs base folder v = some c) ∧
    (pyEndsWith (join3 base folder v) ".html" = false ∨
        readFile fs (join3 base folder v) = none →
      resolveDescriptionField fs base folder v = v ∧
      resolveHtmlOpt fs base folder v = none) ∧
    (∀ m : Manifest,
      (normalizeChallengeFields fs base folder m).description =
        resolveDescriptionField fs base folder m.description ∧
      (normalizeChallengeFields fs base folder m).evaluation_details =
        resolveHtmlOpt fs base folder m.evaluation_details ∧
      (normalizeChallengeFields fs base folder m).terms_and_conditions =
        resolveHtmlOpt fs base folder m.terms_and_conditions ∧
      (normalizeChallengeFields fs base folder m).submission_guidelines =
        resolveHtmlOpt fs base folder m.submission_guidelines) := by
  refine ⟨?_, ?_, fun m => ⟨rfl, rfl, rfl, rfl⟩⟩
  · intro hext c hread
    constructor
    · simp [resolveDescriptionField, hext, hread]
    · simp [resolveHtmlOpt, hext, hread]
  · intro h
    rcases h with h | h
    · constructor <;> simp [resolveDescriptionField, resolveHtmlOpt, h]
    · cases he : pyEndsWith (join3 base folder v) ".html" <;>
        constructor <;> simp [resolveDescriptionField, resolveHtmlOpt, he, h]

/-- C3 witness: a concrete existing `.html` file is inlined into both the
description field and the optional fields. -/
theorem html_resolution_amended_witness :
    (pyEndsWith (join3 "" "" "d.html") ".html" = true) ∧
    resolveDescriptionField [("d.html", "HTML")] "" "" "d.html" = "HTML" ∧
    resolveHtmlOpt [("d.html", "HTML")] "" "" "d.html" = some "HTML" :=
  ⟨rfl,
    ((html_resolution_amended [("d.html", "HTML")] "" "" "d.html").1
      rfl "HTML" rfl).1,
    ((html_resolution_amended [("d.html", "HTML")] "" "" "d.html").1
      rfl "HTML" rfl).2⟩

theorem processPhases_phases_mono (fs : FileSystem) (base folder : String)
    (ser : Serializers) (ch : ChallengeRec) :
    ∀ (l : List PhaseData) (path : String) (ann : Option String) (db : DB),
      ∃ tail, (processPhases fs base folder ser ch l path ann db).1.phases
        = db.phases ++ tail := by
  intro l
  induction l with
  | nil =>
    intro path ann db
    exact ⟨[], by simp [processPhases]⟩
  | cons d rest ih =>
    intro path ann db
    simp only [processPhases]
    split
    · exact ⟨[], by simp⟩
    · split
      · simp only [consIds_fst]
        obtain ⟨t, ht⟩ := ih _ _ _
        rw [ht]
        simp only [List.append_assoc]
        exact ⟨_, rfl⟩
      · exact ⟨[], by simp⟩

/-- C4 counterexample: in a bundle whose second phase references an
annotation path absent on disk, the import succeeds and persists BOTH
phases — the second one silently carrying the first phase's annotation
content "A1" — because the loop variable holding the loaded annotation
file is stale rather than reset per phase. -/
theorem stale_annot_counterexample :
    readFile fs4 (join3 "" "" "ann2.txt") = none ∧
    isOkB (Challenge.load_from_zip env4 serAccept db0).2 = true ∧
    ((Challenge.load_from_zip env4 serAccept db0).1.phases.map
      (fun p => (p.codename, p.test_annot))) = [("p1", "A1"), ("p2", "A1")] := by
  refine ⟨rfl, rfl, rfl⟩

/-- C4 (amended): a phase whose annotation path is absent makes the import
fail only when no annotation file has been loaded yet in this run (the
serializer context then reads an unbound local, `NameError`), and then no
phase row is persisted; once some earlier phase's annotation was loaded,
a phase with an absent path is persisted (under an accepting serializer)
with the most recently loaded annotation content instead of failing. -/
theorem missing_annot_amended (fs : FileSystem) (base folder : String)
    (ser : Serializers) (ch : ChallengeRec) (data : PhaseData)
    (rest : List PhaseData) (path : String) (db : DB) (c : String)
    (hfile : (data.test_annot_file != "") = true)
    (habsent : readFile fs (join3 base folder data.test_annot_file) = none) :
    (processPhases fs base folder ser ch (data :: rest) path none db
      = (db, .error .nameError)) ∧
    ((∀ f, ser.phaseValid f = true) →
      ∃ row tail,
        (processPhases fs base folder ser ch (data :: rest) path (some c)
          db).1.phases = db.phases ++ (row :: tail) ∧
        row.test_annot = c ∧ row.codename = data.codename) := by
  constructor
  · simp only [processPhases, hfile, if_true, habsent]
  · intro hall
    simp only [processPhases, hfile, if_true, habsent, hall, consIds_fst]
    obtain ⟨t, ht⟩ := processPhases_phases_mono fs base folder ser ch rest _ _ _
    rw [ht]
    refine ⟨ChallengePhase.save
      { pk := some db.nextPk
        challenge := ch.pk
        name := data.name
        codename := data.codename
        slug := phase_slug ch.title data.codename (pkStr ch.pk)
        description := resolveHtmlOpt fs base folder data.description
        test_annot := c
        max_submissions_per_day := data.max_submissions_per_day
        max_submissions_per_month := data.max_submissions_per_month
        max_submissions := data.max_submissions
        max_concurrent_submissions_allowed :=
          data.max_concurrent_submissions_allowed }, t, ?_, ?_, ?_⟩
    · simp [List.append_assoc]
    · simp only [ChallengePhase.save]
      split <;> rfl
    · simp only [ChallengePhase.save]
      split <;> rfl

/-- C4 witness: concrete instances of both branches of the amended
statement — a first phase with an absent annotation path aborts with the
unbound-variable error leaving the database untouched, while after a
loaded annotation the same phase is persisted with the stale content. -/
theorem missing_annot_amended_witness :
    ((("ann2.txt" : String) != "") = true) ∧
    (readFile fs4 (join3 "" "" "ann2.txt") = none) ∧
    (processPhases fs4 "" "" serAccept junkChallenge
      [⟨2, "Phase 2", "p2", "pd2", "ann2.txt", 10, 10, 10, 3⟩] "" none db0
      = (db0, .error .nameError)) ∧
    (∃ row tail,
      (processPhases fs4 "" "" serAccept junkChallenge
        [⟨2, "Phase 2", "p2", "pd2", "ann2.txt", 10, 10, 10, 3⟩] "" (some "A1")
        db0).1.phases = db0.phases ++ (row :: tail) ∧
      row.test_annot = "A1" ∧ row.codename = "p2") :=
  ⟨rfl, rfl,
    (missing_annot_amended fs4 "" "" serAccept junkChallenge
      ⟨2, "Phase 2", "p2", "pd2", "ann2.txt", 10, 10, 10, 3⟩ [] "" db0 "A1"
      rfl rfl).1,
    (missing_annot_amended fs4 "" "" serAccept junkChallenge
      ⟨2, "Phase 2", "p2", "pd2", "ann2.txt", 10, 10, 10, 3⟩ [] "" db0 "A1"
      rfl rfl).2 (fun _ => rfl)⟩

theorem persistChallenge_teams (db : DB) (c : ChallengeRec) :
    (persistChallenge db c).1.participantTeams = db.participantTeams := by
  cases h : c.pk <;> simp [persistChallenge, h]

theorem processLeaderboards_teams (ser : Serializers) :
    ∀ (l : List LBData) (db : DB),
      (processLeaderboards ser l db).1.participantTeams =
        db.participantTeams := by
  intro l
  induction l with
  | nil => intro db; rfl
  | cons d rest ih =>
    intro db
    simp only [processLeaderboards]
    split
    · simp only [consIds_fst]
      exact ih _
    · rfl

theorem processPhases_teams (fs : FileSystem) (base folder : String)
    (ser : Serializers) (ch : ChallengeRec) :
    ∀ (l : List PhaseData) (path : String) (ann : Option String) (db : DB),
      (processPhases fs base folder ser ch l path ann db).1.participantTeams =
        db.participantTeams := by
  intro l
  induction l with
  | nil => intro path ann db; rfl
  | cons d rest ih =>
    intro path ann db
    simp only [processPhases]
    split
    · rfl
    · split
      · simp only [consIds_fst]
        exact ih _ _ _
      · rfl

theorem processSplits_teams (ser : Serializers) :
    ∀ (l : List SplitData) (db : DB),
      (processSplits ser l db).1.participantTeams = db.participantTeams := by
  intro l
  induction l with
  | nil => intro db; rfl
  | cons d rest ih =>
    intro db
    simp only [processSplits]
    split
    · simp only [consIds_fst]
      exact ih _
    · rfl

theorem processPhaseSplits_teams (ser : Serializers)
    (phase_ids lb_ids split_ids : List (Nat × Nat)) :
    ∀ (l : List PhaseSplitData) (db : DB),
      (processPhaseSplits ser phase_ids lb_ids split_ids l
        db).1.participantTeams = db.participantTeams := by
  intro l
  induction l with
  | nil => intro db; rfl
  | cons d rest ih =>
    intro db
    simp only [processPhaseSplits]
    split
    · split
      · exact ih _
      · rfl
    · rfl

theorem enrollEmails_ok (lookup : String → Option Nat) (teamPk : Nat) :
    ∀ (emails : List String) (db db' : DB),
      enrollEmails lookup teamPk emails db = (db', .ok ()) →
      db'.participantTeams = db.participantTeams ∧
      db'.challengeTeams = db.challengeTeams ∧
      (∀ x ∈ db.participants, x ∈ db'.participants) ∧
      (∀ e ∈ emails, ∃ u, lookup e = some u ∧
        (⟨u, Participant.ACCEPTED, teamPk⟩ : ParticipantRec) ∈
          db'.participants) := by
  intro emails
  induction emails with
  | nil =>
    intro db db' h
    simp only [enrollEmails, Prod.mk.injEq] at h
    obtain ⟨rfl, -⟩ := h
    exact ⟨rfl, rfl, fun x hx => hx, by simp⟩
  | cons e rest ih =>
    intro db db' h
    simp only [enrollEmails] at h
    cases hl : lookup e with
    | none => rw [hl] at h; simp [Prod.mk.injEq] at h
    | some u =>
      rw [hl] at h
      obtain ⟨h1, h2, h3, h4⟩ := ih _ _ h
      refine ⟨h1, h2, ?_, ?_⟩
      · intro x hx
        exact h3 x (List.mem_append_left _ hx)
      · intro e' he'
        rcases List.mem_cons.1 he' with rfl | hm
        · exact ⟨u, hl, h3 _ (by simp)⟩
        · exact h4 e' hm

theorem addHostParticipants_ok (env : Env) (ch : ChallengeRec) (db db' : DB)
    (ch' : ChallengeRec)
    (h : addHostParticipants env ch db = (db', .ok ch')) :
    ch' = ch ∧
    (ch.is_docker_based = true → db' = db) ∧
    (ch.is_docker_based = false → ∃ team : TeamRec,
      db'.participantTeams = db.participantTeams ++ [team] ∧
      team.team_name = "Host_" ++ toString env.randValue ++ "_Team" ∧
      (ch.pk, team.pk) ∈ db'.challengeTeams ∧
      ∀ e ∈ env.hostEmails, ∃ u, env.userByEmail e = some u ∧
        (⟨u, Participant.ACCEPTED, team.pk⟩ : ParticipantRec) ∈
          db'.participants) := by
  cases hd : ch.is_docker_based with
  | true =>
    simp only [addHostParticipants, hd, if_true, Prod.mk.injEq] at h
    obtain ⟨rfl, h2⟩ := h
    refine ⟨(Except.ok.injEq _ _ ▸ h2 : ch = ch').symm, fun _ => rfl, ?_⟩
    intro hfalse
    simp at hfalse
  | false =>
    simp only [addHostParticipants, hd, Bool.false_eq_true, if_false] at h
    cases henr : enrollEmails env.userByEmail db.nextPk env.hostEmails
      { db with
        nextPk := db.nextPk + 1
        participantTeams := db.participantTeams ++
          [{ pk := db.nextPk
             team_name := "Host_" ++ toString env.randValue ++ "_Team"
             created_by := env.hostTeamCreatedBy }] } with
    | mk db2 r =>
      rw [henr] at h
      cases r with
      | error e => simp [Prod.mk.injEq] at h
      | ok u0 =>
        simp only [Prod.mk.injEq] at h
        obtain ⟨rfl, h2⟩ := h
        obtain rfl : ch = ch' := Except.ok.injEq _ _ ▸ h2
        obtain ⟨e1, e2, e3, e4⟩ := enrollEmails_ok env.userByEmail db.nextPk
          env.hostEmails _ _ henr
        refine ⟨rfl, ?_, ?_⟩
        · intro htrue; simp at htrue
        · intro _
          refine ⟨{ pk := db.nextPk
                    team_name := "Host_" ++ toString env.randValue ++ "_Team"
                    created_by := env.hostTeamCreatedBy }, ?_, rfl, ?_, ?_⟩
          · exact e1
          · simp
          · intro e he
            obtain ⟨u, hu, hmem⟩ := e4 e he
            exact ⟨u, hu, hmem⟩

/-- C8: every successful non-docker import creates exactly one new
synthetic participant team named from the random draw, attaches it to the
created challenge, and enrolls every (verified, per the spec-modelled
host-email list) host email as an accepted participant of that team; a
successful docker-based import creates no participant team. -/
theorem host_participants_on_success (env : Env) (ser : Serializers)
    (db db' : DB) (ch : ChallengeRec)
    (h : Challenge.load_from_zip env ser db = (db', .ok ch)) :
    (ch.is_docker_based = true →
      db'.participantTeams = db.participantTeams) ∧
    (ch.is_docker_based = false → ∃ team : TeamRec,
      db'.participantTeams = db.participantTeams ++ [team] ∧
      team.team_name = "Host_" ++ toString env.randValue ++ "_Team" ∧
      (ch.pk, team.pk) ∈ db'.challengeTeams ∧
      ∀ e ∈ env.hostEmails, ∃ u, env.userByEmail e = some u ∧
        (⟨u, Participant.ACCEPTED, team.pk⟩ : ParticipantRec) ∈
          db'.participants) := by
  simp only [Challenge.load_from_zip] at h
  split at h
  · simp at h
  · split at h
    · simp at h
    · split at h
      · simp at h
      · split at h
        · split at h
          · simp at h
          · rename_i db3 lb_ids heq_lb
            split at h
            · simp at h
            · rename_i db4 phase_ids heq_ph
              split at h
              · simp at h
              · rename_i db5 split_ids heq_sp
                split at h
                · simp at h
                · rename_i db6 psu heq_ps
                  obtain ⟨hch, hdock_t, hdock_f⟩ :=
                    addHostParticipants_ok env _ db6 db' ch h
                  subst hch
                  have q1 := congrArg (fun p => p.1.participantTeams) heq_lb
                  simp only [processLeaderboards_teams,
                    persistChallenge_teams] at q1
                  have q2 := congrArg (fun p => p.1.participantTeams) heq_ph
                  simp only [processPhases_teams] at q2
                  have q3 := congrArg (fun p => p.1.participantTeams) heq_sp
                  simp only [processSplits_teams] at q3
                  have q4 := congrArg (fun p => p.1.participantTeams) heq_ps
                  simp only [processPhaseSplits_teams] at q4
                  have e6 := (q1.trans (q2.trans (q3.trans q4))).symm
                  constructor
                  · intro hd
                    rw [hdock_t hd]
                    exact e6
                  · intro hd
                    obtain ⟨team, ht1, ht2, ht3, ht4⟩ := hdock_f hd
                    exact ⟨team, by rw [ht1, e6], ht2, ht3, ht4⟩
        · simp at h

/-- C8 witness: the concrete non-docker run creates one team
"Host_7_Team", attaches it to the challenge, and enrolls the single host
email's account as an accepted participant. -/
theorem host_participants_on_success_witness :
    (ch8.is_docker_based = false) ∧
    (∃ team : TeamRec,
      loadRes8.1.participantTeams = db0.participantTeams ++ [team] ∧
      team.team_name = "Host_" ++ toString env8.randValue ++ "_Team" ∧
      (ch8.pk, team.pk) ∈ loadRes8.1.challengeTeams ∧
      ∀ e ∈ env8.hostEmails, ∃ u, env8.userByEmail e = some u ∧
        (⟨u, Participant.ACCEPTED, team.pk⟩ : ParticipantRec) ∈
          loadRes8.1.participants) :=
  ⟨rfl,
    (host_participants_on_success env8 serAccept db0 loadRes8.1 ch8 rfl).2 rfl⟩

end EvalAI
